import Mathlib

/-!
Verification development for the Rapture-Transcoder repository.

The definitions below are a shallow embedding of the Python sources
`run_transcode.py` and `HT_linuxbuild.py`.  External effects are made
explicit:

* the filesystem and the `ffprobe` media-probe service are an oracle
  (structure `FS`);
* the external process's textual output, its exit code and the
  progress callback are explicit arguments;
* `logging` calls and filesystem mutations are recorded as a list of
  structured events (`Ev`), and each textual log message is represented
  by a constructor carrying the data that the source interpolates into
  the message;
* Python floats are modelled by exact rationals (`ℚ`); every numeric
  comparison appearing in the claims is far from the rounding error of
  binary floating point, so the comparisons agree with the source;
* Python exceptions are modelled with `Except`: `.error ()` marks a
  raised exception (`KeyError` / `StopIteration` / `OSError`) that the
  enclosing caller catches.

Pause/resume commands (`command_queue` / `pause_event`) only stall the
read loop in `HT_linuxbuild.transcode_file`; they never change the value
the function returns, so the embedding of that function elides the
busy-wait and keeps the cancellation check, which does change the value.
-/

namespace Rapture

/-- Python's `abs` on our rational model of floats. -/
def ratAbs (q : ℚ) : ℚ := if q < 0 then -q else q

/-- One entry of the `streams` array of an `ffprobe` result
(`codec_type`, `codec_name`, and the optional `bit_rate` string). -/
structure MediaStream where
  codec_type : String
  codec_name : String
  bit_rate : Option String
  deriving DecidableEq, Repr

/-- An `ffprobe` result: the `format.duration` field (absent when the
probe printed an empty JSON object) and the `streams` array. -/
structure MediaInfo where
  fmt_duration : Option ℚ
  streams : List MediaStream
  deriving DecidableEq, Repr

/-- The external world consulted by the code: `os.path.exists`,
`os.path.getsize`, and `ffprobe`.  `probe p = none` models a probe whose
subprocess failed (`run_transcode.get_video_info` returns `None` there;
`HT_linuxbuild`'s inline `get_video_info` parses the empty JSON object
`{}` instead, see `probe_raw`). -/
structure FS where
  pathOk : String → Bool
  size : String → Nat
  probe : String → Option MediaInfo

/-- `HT_linuxbuild.verify_transcoded_file`'s inner `get_video_info`: it runs
`ffprobe` without `check=True` and `json.loads` the stdout, so a failed
probe yields the empty object `{}` (no `format`, no `streams`) rather
than `None`. -/
def probe_raw (fs : FS) (p : String) : MediaInfo :=
  (fs.probe p).getD { fmt_duration := none, streams := [] }

/-- Structured run events: probe attempts, log messages (each
constructor stands for the f-string the source logs, carrying the
interpolated data), job dispatch, and deletion of an original file. -/
inductive Ev where
  | probe (path : String)
  | logMissingOutput (path : String)
  | logEmptyOutput (path : String)
  | logNoInfo
  | logDurationMismatch (input_duration output_duration : ℚ)
  | logVerificationPassed
  | dispatch (filename : String)
  | deleteOriginal (path : String)
  deriving DecidableEq, Repr

/-! ## ProgressParser — `run_transcode.parse_progress`

The fixed patterns `time=(\d{2}):(\d{2}):(\d{2}\.\d{2})` and
`frame=\s*(\d+)` are embedded as scanners over the line's characters;
`search*` tries the pattern at every position left to right, which is
exactly `re.search`'s leftmost-match semantics. -/

/-- Numeric value of a run of decimal digits. -/
def digitsToNat (ds : List Char) : Nat :=
  ds.foldl (fun n c => 10 * n + (c.toNat - '0'.toNat)) 0

/-- Python's `\s` class (ASCII part): space, tab, newline, carriage
return, vertical tab, form feed. -/
def pySpace (c : Char) : Bool :=
  c = ' ' || c = '\t' || c = '\n' || c = '\r' || c = '\x0b' || c = '\x0c'

/-- Try `time=(\d{2}):(\d{2}):(\d{2}\.\d{2})` at the head of the list,
returning the digit groups (hours, minutes, integer seconds, centi-second
fraction); `float` of the third capture group is the rational
`sInt + sFrac / 100`, computed in `parse_progress`. -/
def matchTimeAt : List Char → Option (Nat × Nat × Nat × Nat)
  | 't' :: 'i' :: 'm' :: 'e' :: '=' :: h1 :: h2 :: ':' :: m1 :: m2 :: ':'
      :: s1 :: s2 :: '.' :: f1 :: f2 :: _ =>
    if h1.isDigit && h2.isDigit && m1.isDigit && m2.isDigit
        && s1.isDigit && s2.isDigit && f1.isDigit && f2.isDigit then
      some (digitsToNat [h1, h2], digitsToNat [m1, m2],
        digitsToNat [s1, s2], digitsToNat [f1, f2])
    else none
  | _ => none

/-- Leftmost match of the elapsed-time pattern in the line. -/
def searchTime : List Char → Option (Nat × Nat × Nat × Nat)
  | [] => none
  | c :: cs =>
    match matchTimeAt (c :: cs) with
    | some r => some r
    | none => searchTime cs

/-- Try `frame=\s*(\d+)` at the head of the list. -/
def matchFrameAt : List Char → Option Nat
  | 'f' :: 'r' :: 'a' :: 'm' :: 'e' :: '=' :: rest =>
    let ds := (rest.dropWhile pySpace).takeWhile Char.isDigit
    if ds.isEmpty then none else some (digitsToNat ds)
  | _ => none

/-- Leftmost match of the frame-count pattern in the line. -/
def searchFrame : List Char → Option Nat
  | [] => none
  | c :: cs =>
    match matchFrameAt (c :: cs) with
    | some r => some r
    | none => searchFrame cs

/-- The dictionary `{'time': ..., 'frame': ..., 'percentage': ...}`
returned by `run_transcode.parse_progress`. -/
structure Progress where
  time : ℚ
  frame : Nat
  percentage : ℚ
  deriving DecidableEq, Repr

/-- `run_transcode.parse_progress(output, duration)`. -/
def parse_progress (output : List Char) (duration : ℚ) : Option Progress :=
  match searchTime output, searchFrame output with
  | some (hours, minutes, sInt, sFrac), some frame =>
    let seconds : ℚ := (sInt : ℚ) + (sFrac : ℚ) / 100
    let time : ℚ := (hours : ℚ) * 3600 + (minutes : ℚ) * 60 + seconds
    some { time := time, frame := frame,
           percentage := if duration > 0 then (time / duration) * 100 else 0 }
  | _, _ => none

/-! ## EncoderResolver — `run_transcode.get_encoder` -/

/-- ASCII lower-casing, the effect of Python's `str.lower` on the codec
names involved. -/
def asciiLower (c : Char) : Char :=
  if 'A' ≤ c && c ≤ 'Z' then Char.ofNat (c.toNat + 32) else c

/-- Python `s.lower()` for the strings the resolver compares. -/
def pyLower (s : String) : String := ⟨s.data.map asciiLower⟩

/-- The codec-alias normalisation loop at the top of `get_encoder`:
the requested name (lower-cased for the comparison only) is collapsed to
the canonical family name, and an unmatched name is left unchanged. -/
def normalize_codec (config_encoder : String) : String :=
  let lc := pyLower config_encoder
  if lc = "h264" || lc = "x264" || lc = "h.264" || lc = "avc" then "h264"
  else if lc = "hevc" || lc = "x265" || lc = "h265" || lc = "h.265" then "hevc"
  else if lc = "av1" then "av1"
  else config_encoder

/-- The nested `gpu_encoders` dictionary literal of `get_encoder`, as a
finite map: `gpuEnc g c` is `gpu_encoders[g][c]` when
`g in gpu_encoders and c in gpu_encoders[g]`, and `none` otherwise. -/
def gpuEnc (gpu_type codec : String) : Option String :=
  if gpu_type = "nvidia" then
    if codec = "h264" then some "h264_nvenc"
    else if codec = "hevc" then some "hevc_nvenc"
    else if codec = "av1" then some "av1_nvenc"
    else none
  else if gpu_type = "intel" then
    if codec = "h264" then some "h264_qsv"
    else if codec = "hevc" then some "hevc_qsv"
    else if codec = "av1" then some "av1_qsv"
    else none
  else if gpu_type = "amd" then
    if codec = "h264" then some "h264_amf"
    else if codec = "hevc" then some "hevc_amf"
    else none
  else none

/-- Which arm of `get_encoder` produced the result (the spec's
`acceleration_kind`, refined to tell the primary hardware pick from the
fallback hardware pick). -/
inductive Accel where
  | hwPrimary
  | hwFallback
  | software
  deriving DecidableEq, Repr

/-- The `logger.warning` calls of `get_encoder`, as structured data. -/
inductive EncWarn where
  | gpuEncoderUnavailable (encoder : String)
  | fallbackUnavailable (encoder : String)
  | unsupportedEncoder (codec : String)
  deriving DecidableEq, Repr

/-- Result of `get_encoder`: the returned encoder string, the arm that
produced it, and the warnings logged on the way. -/
structure EncoderChoice where
  encoder : String
  branch : Accel
  warnings : List EncWarn
  deriving DecidableEq, Repr

/-- The CPU-encoding tail of `get_encoder` (`libx264` / `libx265` /
`libaom-av1`, with `libx264` and a warning for anything else). -/
def cpu_fallback (ce : String) (ws : List EncWarn) : EncoderChoice :=
  if ce = "h264" then { encoder := "libx264", branch := .software, warnings := ws }
  else if ce = "hevc" then { encoder := "libx265", branch := .software, warnings := ws }
  else if ce = "av1" then { encoder := "libaom-av1", branch := .software, warnings := ws }
  else { encoder := "libx264", branch := .software,
         warnings := ws ++ [.unsupportedEncoder ce] }

/-- The `fallback_encoder` step of `get_encoder`: note that the
configured fallback string is compared against the tier table's keys
as-is, without alias normalisation. -/
def try_fallback (ce gpu_type fallback_encoder : String)
    (support : String → Bool) (ws : List EncWarn) : EncoderChoice :=
  if fallback_encoder = "" then cpu_fallback ce ws
  else
    match gpuEnc gpu_type fallback_encoder with
    | some fe =>
      if support fe then { encoder := fe, branch := .hwFallback, warnings := ws }
      else cpu_fallback ce (ws ++ [.fallbackUnavailable fe])
    | none => cpu_fallback ce ws

/-- `run_transcode.get_encoder(config_encoder, gpu_type, config)`.
`support` is the `check_encoder_support` oracle (`ffmpeg -encoders`),
and `fallback_encoder` is `config.get('fallback_encoder')` (the empty
string is Python-falsy). -/
def get_encoder (config_encoder gpu_type fallback_encoder : String)
    (support : String → Bool) : EncoderChoice :=
  match gpuEnc gpu_type (normalize_codec config_encoder) with
  | some ge =>
    if support ge then { encoder := ge, branch := .hwPrimary, warnings := [] }
    else try_fallback (normalize_codec config_encoder) gpu_type
      fallback_encoder support [.gpuEncoderUnavailable ge]
  | none =>
    try_fallback (normalize_codec config_encoder) gpu_type fallback_encoder
      support []

/-! ## Verifier — `run_transcode.verify_transcoding` and
`HT_linuxbuild.verify_transcoded_file` -/

/-- The structured content of the second component of
`verify_transcoded_file`'s returned `(bool, message)` pair; each
constructor stands for the corresponding message string, carrying the
interpolated data. -/
inductive Reason where
  | missingOrEmpty
  | durationMismatch (input_duration output_duration : ℚ)
  | wrongCodec (got : Option String)
  | passed
  deriving DecidableEq, Repr

/-- `run_transcode.verify_transcoding(input_file, output_file, tolerance)`
(the source's default tolerance is `1.0`).  Returns the run's events and
the boolean result; `.error ()` is the `KeyError` raised when a probe
succeeded but its JSON lacks `format.duration` (the caller's
`except Exception` catches it). -/
def verify_transcoding (fs : FS) (input_file output_file : String)
    (tolerance : ℚ) : List Ev × Except Unit Bool :=
  if fs.pathOk output_file = false then
    ([Ev.logMissingOutput output_file], .ok false)
  else if fs.size output_file = 0 then
    ([Ev.logEmptyOutput output_file], .ok false)
  else
    let evs := [Ev.probe input_file, Ev.probe output_file]
    match fs.probe input_file, fs.probe output_file with
    | some input_info, some output_info =>
      match input_info.fmt_duration, output_info.fmt_duration with
      | some input_duration, some output_duration =>
        if ratAbs (input_duration - output_duration) > tolerance then
          (evs ++ [Ev.logDurationMismatch input_duration output_duration], .ok false)
        else
          (evs ++ [Ev.logVerificationPassed], .ok true)
      | _, _ => (evs, .error ())
    | _, _ => (evs ++ [Ev.logNoInfo], .ok false)

/-- `HT_linuxbuild.verify_transcoded_file(input_file, output_file)`.
It probes both files first, then checks existence/size, then compares
durations against the hard-coded tolerance `2`, then requires the first
video stream's codec to be the hard-coded `"av1"`.  `.error ()` is the
`KeyError` raised when a probe result lacks `format.duration`. -/
def verify_transcoded_file (fs : FS) (input_file output_file : String) :
    List Ev × Except Unit (Bool × Reason) :=
  let input_info := probe_raw fs input_file
  let output_info := probe_raw fs output_file
  let evs := [Ev.probe input_file, Ev.probe output_file]
  if fs.pathOk output_file = false || fs.size output_file = 0 then
    (evs, .ok (false, .missingOrEmpty))
  else
    match input_info.fmt_duration, output_info.fmt_duration with
    | some input_duration, some output_duration =>
      if ratAbs (input_duration - output_duration) > 2 then
        (evs, .ok (false, .durationMismatch input_duration output_duration))
      else
        let output_codec :=
          (output_info.streams.find? (fun s => s.codec_type == "video")).map
            (fun s => s.codec_name)
        if output_codec ≠ some "av1" then
          (evs, .ok (false, .wrongCodec output_codec))
        else
          (evs, .ok (true, .passed))
    | _, _ => (evs, .error ())

/-! ## TranscodeEngine command construction — `run_transcode.transcode_video`
lines 307–336 (the ffmpeg argv) -/

/-- Configuration fields of `config.json` consumed by
`transcode_video`; the bitrates are the `int(...)`-parsed values
(non-positive settings all take the source's else-branch, so `Nat`
suffices for the claims' `B > 0` / `B = 0` cases). -/
structure TConfig where
  video_codec : String
  video_bitrate : Nat
  audio_bitrate : Nat
  fallback_encoder : String
  deriving DecidableEq, Repr

/-- Python `int(video_bitrate * 1.5)` under exact arithmetic: for a
non-negative integer `B`, truncation of `1.5 * B` is `3 * B / 2` in
integer division. -/
def maxrate_k (B : Nat) : Nat := 3 * B / 2

/-- The f-string `f"{n}k"`. -/
def fmtK (n : Nat) : String := toString n ++ "k"

/-- The ffmpeg argv built by `transcode_video` (lines 307–336).
`.error ()` is the `StopIteration` escaping from `next(...)` when the
bitrate is unset and the input has no video stream. -/
def build_ffmpeg_command (input_file output_file encoder : String)
    (cfg : TConfig) (input_info : MediaInfo) : Except Unit (List String) :=
  let base := ["ffmpeg", "-i", input_file, "-map", "0", "-c:v", encoder]
  let videoArgs : Except Unit (List String) :=
    if cfg.video_bitrate > 0 then
      .ok ["-b:v", fmtK cfg.video_bitrate,
           "-maxrate", fmtK (maxrate_k cfg.video_bitrate),
           "-bufsize", fmtK (cfg.video_bitrate * 2)]
    else
      match input_info.streams.find? (fun s => s.codec_type == "video") with
      | none => .error ()
      | some vs =>
        match vs.bit_rate with
        | some r => if r = "" then .ok [] else .ok ["-b:v", r]
        | none => .ok []
  match videoArgs with
  | .error e => .error e
  | .ok va =>
    let audioArgs :=
      ["-c:a", "copy"] ++
        (if cfg.audio_bitrate > 0 then
          ["-c:a:0", "aac", "-b:a:0", fmtK cfg.audio_bitrate]
        else [])
    .ok (base ++ va ++ audioArgs ++ ["-c:s", "copy"] ++ ["-y", output_file])

/-! ## TranscodeEngine / JobOrchestrator — `HT_linuxbuild.transcode_file`,
`process_file` and the dispatch loop of `main` -/

/-- Try the HandBrake progress pattern `(\d+\.\d+) %` at the head of the
list, returning the matched percentage. -/
def matchPercentAt (l : List Char) : Option ℚ :=
  let ds := l.takeWhile Char.isDigit
  if ds.isEmpty then none
  else
    match l.drop ds.length with
    | '.' :: rest =>
      let fr := rest.takeWhile Char.isDigit
      if fr.isEmpty then none
      else
        match rest.drop fr.length with
        | ' ' :: '%' :: _ =>
          some ((digitsToNat ds : ℚ) + (digitsToNat fr : ℚ) / (10 ^ fr.length : ℚ))
        | _ => none
    | _ => none

/-- Leftmost match of the HandBrake progress pattern in a line. -/
def searchPercent : List Char → Option ℚ
  | [] => none
  | c :: cs =>
    match matchPercentAt (c :: cs) with
    | some r => some r
    | none => searchPercent cs

/-- The read loop of `transcode_file`: the first progress value at which
the callback asked for cancellation, if any.  Lines without a progress
match, and runs without a callback, never cancel. -/
def first_cancel (callback : Option (ℚ → Bool)) : List String → Option ℚ
  | [] => none
  | l :: ls =>
    match searchPercent l.data, callback with
    | some p, some cb => if cb p then some p else first_cancel callback ls
    | _, _ => first_cancel callback ls

/-- The value `HT_linuxbuild.transcode_file` returns: the string
`"cancelled"`, `None`, or the elapsed transcoding time. -/
inductive TResult where
  | cancelled
  | failed
  | success
  deriving DecidableEq, Repr

/-- `HT_linuxbuild.transcode_file` with the spawned process's stdout
`lines` and exit code `rc` made explicit.  On a cancellation request it
terminates the process and returns `"cancelled"` before any
verification; otherwise a non-zero exit, a verification failure, or an
exception inside the `try` (here: the verifier's `KeyError`) yield
`None`, and a verified exit 0 yields the elapsed time. -/
def transcode_file (fs : FS) (input_file output_file : String)
    (lines : List String) (rc : Int) (callback : Option (ℚ → Bool)) :
    TResult × List Ev :=
  match first_cancel callback lines with
  | some _ => (.cancelled, [])
  | none =>
    if rc ≠ 0 then (.failed, [])
    else
      match verify_transcoded_file fs input_file output_file with
      | (evs, .error _) => (.failed, evs)
      | (evs, .ok (false, _)) => (.failed, evs)
      | (evs, .ok (true, _)) => (.success, evs)

/-- `os.path.join(dir, filename)` for the paths the orchestrator
builds. -/
def joinPath (d f : String) : String := d ++ "/" ++ f

/-- `HT_linuxbuild.process_file`.  `lines`/`rc` describe the HandBrake
process of this job and `progress_callback` is the caller's callback
(curried with the filename, as `partial(progress_callback, filename)`
does).  The `is not None` test on the transcode result lets both the
elapsed time and the string `"cancelled"` into the success branch; the
early `(false, [])` returns are the `except` clause catching the
`OSError` of `get_file_size` on a missing path. -/
def process_file (fs : FS) (filename indir outdir : String)
    (lines : List String) (rc : Int)
    (progress_callback : Option (String → ℚ → Bool))
    (delete_original : Bool) : Bool × List Ev :=
  let full_path := joinPath indir filename
  let output_path := joinPath outdir filename
  if fs.pathOk full_path = false then (false, [])
  else
    let callback := progress_callback.map (fun pc => pc filename)
    match transcode_file fs full_path output_path lines rc callback with
    | (.failed, evs) => (false, evs)
    | (tr, evs) =>
      if fs.pathOk output_path = false then (false, evs)
      else
        match tr, verify_transcoded_file fs full_path output_path with
        | _, (evs2, .ok (true, _)) =>
          if delete_original then (true, evs ++ evs2 ++ [Ev.deleteOriginal full_path])
          else (true, evs ++ evs2)
        | _, (evs2, .ok (false, _)) => (false, evs ++ evs2)
        | _, (evs2, .error _) => (false, evs ++ evs2)

/-- The dispatch loop of `HT_linuxbuild.main` (lines 304–322): every
file of `file_list` is processed in order, unconditionally — there is no
shutdown check between iterations — and `all_stats` records an entry
exactly for the jobs whose `process_file` returned a truthy result.
`env f` gives job `f`'s HandBrake stdout lines and exit code. -/
def main_loop (fs : FS) (env : String → List String × Int)
    (progress_callback : Option (String → ℚ → Bool))
    (delete_original : Bool) (indir outdir : String)
    (file_list : List String) : List (String × Bool) × List Ev :=
  file_list.foldl
    (fun acc filename =>
      let r := process_file fs filename indir outdir (env filename).1
        (env filename).2 progress_callback delete_original
      (acc.1 ++ (if r.1 then [(filename, true)] else []),
       acc.2 ++ [Ev.dispatch filename] ++ r.2))
    ([], [])

/-! ## Concrete states and claim theorems -/

/-- World for the C7 scenario: the output exists and is non-empty, the
input probes to duration `120.0` and the output to `120.4` (= 602/5)
seconds. -/
def fs7 : FS where
  pathOk := fun p => p == "in.mkv" || p == "out.mkv"
  size := fun p => if p == "out.mkv" then 734003200 else 1073741824
  probe := fun p =>
    if p == "in.mkv" then
      some { fmt_duration := some 120,
             streams := [{ codec_type := "video", codec_name := "h264",
                           bit_rate := some "5000000" }] }
    else if p == "out.mkv" then
      some { fmt_duration := some (602 / 5),
             streams := [{ codec_type := "video", codec_name := "hevc",
                           bit_rate := some "3000000" }] }
    else none

/-- C7: with input duration 120.0 s and output duration 120.4 s,
`verify_transcoding` passes at tolerance 1.0 and fails at tolerance 0.2
(= 1/5), logging the duration-mismatch message that carries both
durations. -/
theorem C7_duration_tolerance :
    verify_transcoding fs7 "in.mkv" "out.mkv" 1 =
      ([Ev.probe "in.mkv", Ev.probe "out.mkv", Ev.logVerificationPassed],
        .ok true) ∧
    verify_transcoding fs7 "in.mkv" "out.mkv" (1 / 5) =
      ([Ev.probe "in.mkv", Ev.probe "out.mkv",
        Ev.logDurationMismatch 120 (602 / 5)], .ok false) := by
  have habs : ratAbs ((120 : ℚ) - 602 / 5) = 2 / 5 := by
    unfold ratAbs
    norm_num
  constructor <;> simp [verify_transcoding, fs7, habs] <;> norm_num

/-- C6: `parse_progress` returns `none` exactly when the line lacks an
elapsed-time token or lacks a frame-count token; otherwise the sample's
elapsed time is `hours * 3600 + minutes * 60 + seconds` from the time
token and its percentage is `100 * elapsed / total_duration`, with 0
whenever the total duration is non-positive. -/
theorem C6_parse_progress (output : List Char) (duration : ℚ) :
    (parse_progress output duration = none ↔
      searchTime output = none ∨ searchFrame output = none) ∧
    (∀ hours minutes sInt sFrac frame,
      searchTime output = some (hours, minutes, sInt, sFrac) →
      searchFrame output = some frame →
      parse_progress output duration =
        some { time := (hours : ℚ) * 3600 + (minutes : ℚ) * 60
                 + ((sInt : ℚ) + (sFrac : ℚ) / 100),
               frame := frame,
               percentage :=
                 if duration ≤ 0 then 0
                 else 100 * ((hours : ℚ) * 3600 + (minutes : ℚ) * 60
                   + ((sInt : ℚ) + (sFrac : ℚ) / 100)) / duration }) := by
  constructor
  · rcases ht : searchTime output with _ | ⟨h, m, si, sf⟩ <;>
      rcases hf : searchFrame output with _ | f <;>
      simp [parse_progress, ht, hf]
  · intro hours minutes sInt sFrac frame ht hf
    simp only [parse_progress, ht, hf, Option.some.injEq, Progress.mk.injEq,
      true_and]
    rcases lt_or_le 0 duration with hd | hd
    · rw [if_pos hd, if_neg (not_le.mpr hd)]
      ring
    · rw [if_neg (not_lt.mpr hd), if_pos hd]

/-- Closed instance of `C6_parse_progress` on a concrete ffmpeg progress
line. -/
theorem C6_parse_progress_witness :
    parse_progress (String.data "frame= 5 time=00:00:01.00") 4 =
      some { time := ((0 : ℕ) : ℚ) * 3600 + ((0 : ℕ) : ℚ) * 60
               + (((1 : ℕ) : ℚ) + ((0 : ℕ) : ℚ) / 100),
             frame := 5,
             percentage := if (4 : ℚ) ≤ 0 then 0
               else 100 * (((0 : ℕ) : ℚ) * 3600 + ((0 : ℕ) : ℚ) * 60
                 + (((1 : ℕ) : ℚ) + ((0 : ℕ) : ℚ) / 100)) / 4 } :=
  (C6_parse_progress (String.data "frame= 5 time=00:00:01.00") 4).2 0 0 1 0 5
    (by decide) (by decide)

/-! Helper lemmas about the encoder table and the CPU tail. -/

/-- A successful tier-table lookup means the key was one of the
canonical codec names and the encoder string is one of the eight
hardware encoder names (in particular non-empty). -/
theorem gpuEnc_cases (g c e : String) (h : gpuEnc g c = some e) :
    (c = "h264" ∨ c = "hevc" ∨ c = "av1") ∧ e ≠ "" := by
  unfold gpuEnc at h
  split_ifs at h <;> simp_all <;> (subst h; simp)

/-- The CPU-encoding tail always reports software acceleration. -/
theorem cpu_fallback_branch (ce : String) (ws : List EncWarn) :
    (cpu_fallback ce ws).branch = Accel.software := by
  unfold cpu_fallback
  split_ifs <;> rfl

/-- The CPU-encoding tail's encoder does not depend on the accumulated
warnings. -/
theorem cpu_fallback_encoder_congr (ce : String) (ws ws2 : List EncWarn) :
    (cpu_fallback ce ws).encoder = (cpu_fallback ce ws2).encoder := by
  unfold cpu_fallback
  split_ifs <;> rfl

/-- The CPU-encoding tail never returns an empty encoder string. -/
theorem cpu_fallback_ne_empty (ce : String) (ws : List EncWarn) :
    (cpu_fallback ce ws).encoder ≠ "" := by
  unfold cpu_fallback
  split_ifs <;> simp

/-- On an unrecognised canonical name the CPU tail picks `libx264` and
logs the unsupported-encoder warning. -/
theorem cpu_fallback_unrecognized (ce : String) (ws : List EncWarn)
    (h1 : ce ≠ "h264") (h2 : ce ≠ "hevc") (h3 : ce ≠ "av1") :
    cpu_fallback ce ws =
      { encoder := "libx264", branch := Accel.software,
        warnings := ws ++ [EncWarn.unsupportedEncoder ce] } := by
  unfold cpu_fallback
  rw [if_neg h1, if_neg h2, if_neg h3]

/-- The fallback step never returns an empty encoder string. -/
theorem try_fallback_ne_empty (ce g fb : String) (support : String → Bool)
    (ws : List EncWarn) : (try_fallback ce g fb support ws).encoder ≠ "" := by
  unfold try_fallback
  by_cases hfb : fb = ""
  · rw [if_pos hfb]
    exact cpu_fallback_ne_empty _ _
  · rw [if_neg hfb]
    rcases hp : gpuEnc g fb with _ | fe
    · simp only [hp]
      exact cpu_fallback_ne_empty _ _
    · simp only [hp]
      by_cases hs : support fe = true
      · rw [if_pos hs]
        exact (gpuEnc_cases g fb fe hp).2
      · rw [if_neg hs]
        exact cpu_fallback_ne_empty _ _

/-- C4: when the tier's hardware encoder for the canonical codec is
reported unsupported, resolution picks the fallback codec's hardware
encoder for that tier when a fallback is configured, present in the tier
table and supported, and otherwise the canonical codec's software
encoder. -/
theorem C4_fallback_resolution (requested gpu_type fallback_encoder : String)
    (support : String → Bool) (ge : String)
    (hge : gpuEnc gpu_type (normalize_codec requested) = some ge)
    (hns : support ge = false) :
    (∀ fe, fallback_encoder ≠ "" → gpuEnc gpu_type fallback_encoder = some fe →
      support fe = true →
      get_encoder requested gpu_type fallback_encoder support =
        { encoder := fe, branch := Accel.hwFallback,
          warnings := [EncWarn.gpuEncoderUnavailable ge] }) ∧
    ((fallback_encoder = "" ∨ gpuEnc gpu_type fallback_encoder = none ∨
      (∀ fe, gpuEnc gpu_type fallback_encoder = some fe → support fe = false)) →
      (get_encoder requested gpu_type fallback_encoder support).branch =
        Accel.software ∧
      (get_encoder requested gpu_type fallback_encoder support).encoder =
        (cpu_fallback (normalize_codec requested) []).encoder) := by
  have hbase : get_encoder requested gpu_type fallback_encoder support =
      try_fallback (normalize_codec requested) gpu_type fallback_encoder
        support [EncWarn.gpuEncoderUnavailable ge] := by
    simp only [get_encoder, hge, hns, Bool.false_eq_true, if_false]
  rw [hbase]
  constructor
  · intro fe hfb hfe hsup
    unfold try_fallback
    rw [if_neg hfb]
    simp only [hfe]
    rw [if_pos hsup]
  · intro hcases
    unfold try_fallback
    by_cases hfb : fallback_encoder = ""
    · rw [if_pos hfb]
      exact ⟨cpu_fallback_branch _ _, cpu_fallback_encoder_congr _ _ _⟩
    · rw [if_neg hfb]
      rcases hp : gpuEnc gpu_type fallback_encoder with _ | fe
      · simp only [hp]
        exact ⟨cpu_fallback_branch _ _, cpu_fallback_encoder_congr _ _ _⟩
      · simp only [hp]
        have hsup : support fe = false := by
          rcases hcases with hc | hc | hc
          · exact absurd hc hfb
          · simp [hc] at hp
          · exact hc fe hp
        rw [if_neg (by simp [hsup])]
        exact ⟨cpu_fallback_branch _ _, cpu_fallback_encoder_congr _ _ _⟩

/-- Closed instance of `C4_fallback_resolution` at the claim's concrete
scenario: requested "h264" on tier "nvidia", `h264_nvenc` unsupported,
no fallback configured — resolution is software `libx264`. -/
theorem C4_fallback_resolution_witness :
    (get_encoder "h264" "nvidia" "" (fun _ => false)).branch = Accel.software ∧
    (get_encoder "h264" "nvidia" "" (fun _ => false)).encoder = "libx264" := by
  have h := (C4_fallback_resolution "h264" "nvidia" "" (fun _ => false)
      "h264_nvenc" (by decide) rfl).2 (Or.inl rfl)
  refine ⟨h.1, ?_⟩
  rw [h.2]
  decide

/-- C5 counterexample: for the unrecognised requested codec "vp9" on
tier "nvidia" with fallback codec "hevc" configured and every encoder
supported, `get_encoder` returns the fallback hardware encoder
`hevc_nvenc` — not `libx264` — and logs no warning at all, so the
claim's unrecognised-codec clause is false as stated. -/
theorem C5_counterexample :
    normalize_codec "vp9" = "vp9" ∧
    get_encoder "vp9" "nvidia" "hevc" (fun _ => true) =
      { encoder := "hevc_nvenc", branch := Accel.hwFallback, warnings := [] } ∧
    (get_encoder "vp9" "nvidia" "hevc" (fun _ => true)).encoder ≠ "libx264" := by
  refine ⟨by decide, by decide, by decide⟩

/-- C5 amended: `get_encoder` is total and always returns a non-empty
encoder identifier; when the canonical codec is unrecognised and the
fallback hardware-encoder step is not the arm taken, it returns the
fixed default `libx264` and logs the unsupported-encoder warning. -/
theorem C5_amended_total (config_encoder gpu_type fallback_encoder : String)
    (support : String → Bool) :
    (get_encoder config_encoder gpu_type fallback_encoder support).encoder ≠ "" ∧
    (normalize_codec config_encoder ∉ ["h264", "hevc", "av1"] →
      (get_encoder config_encoder gpu_type fallback_encoder support).branch ≠
        Accel.hwFallback →
      (get_encoder config_encoder gpu_type fallback_encoder support).encoder =
        "libx264" ∧
      EncWarn.unsupportedEncoder (normalize_codec config_encoder) ∈
        (get_encoder config_encoder gpu_type fallback_encoder support).warnings) := by
  constructor
  · unfold get_encoder
    rcases hp : gpuEnc gpu_type (normalize_codec config_encoder) with _ | ge
    · simp only [hp]
      exact try_fallback_ne_empty _ _ _ _ _
    · simp only [hp]
      by_cases hs : support ge = true
      · rw [if_pos hs]
        exact (gpuEnc_cases _ _ _ hp).2
      · rw [if_neg hs]
        exact try_fallback_ne_empty _ _ _ _ _
  · intro hnc hnf
    have hrec : normalize_codec config_encoder ≠ "h264" ∧
        normalize_codec config_encoder ≠ "hevc" ∧
        normalize_codec config_encoder ≠ "av1" := by
      simp only [List.mem_cons, List.mem_singleton, not_or] at hnc
      exact ⟨hnc.1, hnc.2.1, hnc.2.2.1⟩
    have hp : gpuEnc gpu_type (normalize_codec config_encoder) = none := by
      rcases hq : gpuEnc gpu_type (normalize_codec config_encoder) with _ | ge
      · rfl
      · rcases (gpuEnc_cases _ _ _ hq).1 with hc | hc | hc
        · exact absurd hc hrec.1
        · exact absurd hc hrec.2.1
        · exact absurd hc hrec.2.2
    have hbase : get_encoder config_encoder gpu_type fallback_encoder support =
        try_fallback (normalize_codec config_encoder) gpu_type
          fallback_encoder support [] := by
      simp only [get_encoder, hp]
    rw [hbase] at hnf ⊢
    unfold try_fallback at hnf ⊢
    by_cases hfb : fallback_encoder = ""
    · rw [if_pos hfb] at hnf ⊢
      rw [cpu_fallback_unrecognized _ _ hrec.1 hrec.2.1 hrec.2.2]
      simp
    · rw [if_neg hfb] at hnf ⊢
      rcases hq : gpuEnc gpu_type fallback_encoder with _ | fe
      · simp only [hq] at hnf ⊢
        rw [cpu_fallback_unrecognized _ _ hrec.1 hrec.2.1 hrec.2.2]
        simp
      · simp only [hq] at hnf ⊢
        by_cases hs : support fe = true
        · rw [if_pos hs] at hnf
          exact absurd rfl hnf
        · rw [if_neg hs] at hnf ⊢
          rw [cpu_fallback_unrecognized _ _ hrec.1 hrec.2.1 hrec.2.2]
          simp

/-- Closed instance of `C5_amended_total`: requested "vp9" on a machine
with no GPU and no fallback resolves to `libx264` with the
unsupported-encoder warning. -/
theorem C5_amended_total_witness :
    (get_encoder "vp9" "cpu" "" (fun _ => false)).encoder ≠ "" ∧
    (get_encoder "vp9" "cpu" "" (fun _ => false)).encoder = "libx264" ∧
    EncWarn.unsupportedEncoder (normalize_codec "vp9") ∈
      (get_encoder "vp9" "cpu" "" (fun _ => false)).warnings := by
  have h := C5_amended_total "vp9" "cpu" "" (fun _ => false)
  have h2 := h.2 (by decide) (by decide)
  exact ⟨h.1, h2.1, h2.2⟩

/-- C10: the configured fallback codec is never alias-normalised — the
fallback hardware arm is taken only when the fallback string is exactly
a canonical key of the tier's encoder table, and with a non-canonical
fallback string (for example the alias "x265") resolution can only end
in the primary hardware arm or the software arm; in particular it goes
to the software arm whenever the primary hardware encoder is not
selected. -/
theorem C10_fallback_alias_not_normalized
    (config_encoder gpu_type fallback_encoder : String)
    (support : String → Bool) :
    ((get_encoder config_encoder gpu_type fallback_encoder support).branch =
        Accel.hwFallback →
      (gpuEnc gpu_type fallback_encoder).isSome = true) ∧
    (fallback_encoder ∉ ["h264", "hevc", "av1"] →
      (get_encoder config_encoder gpu_type fallback_encoder support).branch ≠
        Accel.hwFallback ∧
      ((∀ ge, gpuEnc gpu_type (normalize_codec config_encoder) = some ge →
          support ge = false) →
        (get_encoder config_encoder gpu_type fallback_encoder support).branch =
          Accel.software)) := by
  have key : ∀ ws, (try_fallback (normalize_codec config_encoder) gpu_type
      fallback_encoder support ws).branch = Accel.hwFallback →
      (gpuEnc gpu_type fallback_encoder).isSome = true := by
    intro ws h
    unfold try_fallback at h
    by_cases hfb : fallback_encoder = ""
    · rw [if_pos hfb, cpu_fallback_branch] at h
      cases h
    · rw [if_neg hfb] at h
      rcases hq : gpuEnc gpu_type fallback_encoder with _ | fe
      · simp only [hq, cpu_fallback_branch] at h
        exact Accel.noConfusion h
      · simp [hq]
  have soft : ∀ ws, fallback_encoder ∉ ["h264", "hevc", "av1"] →
      (try_fallback (normalize_codec config_encoder) gpu_type
        fallback_encoder support ws).branch = Accel.software := by
    intro ws hnc
    have hq : gpuEnc gpu_type fallback_encoder = none := by
      rcases hq2 : gpuEnc gpu_type fallback_encoder with _ | fe
      · rfl
      · exact absurd ((gpuEnc_cases _ _ _ hq2).1.imp id id) (by
          simp only [List.mem_cons, List.mem_singleton, not_or] at hnc
          rintro (hc | hc | hc)
          · exact hnc.1 hc
          · exact hnc.2.1 hc
          · exact hnc.2.2.1 hc)
    unfold try_fallback
    by_cases hfb : fallback_encoder = ""
    · rw [if_pos hfb]
      exact cpu_fallback_branch _ _
    · rw [if_neg hfb]
      simp only [hq]
      exact cpu_fallback_branch _ _
  constructor
  · intro h
    unfold get_encoder at h
    rcases hp : gpuEnc gpu_type (normalize_codec config_encoder) with _ | ge
    · simp only [hp] at h
      exact key [] h
    · simp only [hp] at h
      by_cases hs : support ge = true
      · rw [if_pos hs] at h
        cases h
      · rw [if_neg hs] at h
        exact key _ h
  · intro hnc
    constructor
    · intro h
      unfold get_encoder at h
      rcases hp : gpuEnc gpu_type (normalize_codec config_encoder) with _ | ge
      · simp only [hp] at h
        exact absurd h (by rw [soft [] hnc]; simp)
      · simp only [hp] at h
        by_cases hs : support ge = true
        · rw [if_pos hs] at h
          cases h
        · rw [if_neg hs] at h
          exact absurd h (by rw [soft _ hnc]; simp)
    · intro hns
      unfold get_encoder
      rcases hp : gpuEnc gpu_type (normalize_codec config_encoder) with _ | ge
      · simp only [hp]
        exact soft [] hnc
      · simp only [hp]
        rw [if_neg (by simp [hns ge hp])]
        exact soft _ hnc

/-- Closed instance of `C10_fallback_alias_not_normalized`: requested
"hevc" on tier "nvidia" with the alias fallback "x265" and
`hevc_nvenc` unsupported ends in the software arm, never the fallback
hardware arm. -/
theorem C10_fallback_alias_witness :
    (get_encoder "hevc" "nvidia" "x265" (fun _ => false)).branch ≠
      Accel.hwFallback ∧
    (get_encoder "hevc" "nvidia" "x265" (fun _ => false)).branch =
      Accel.software := by
  have h := (C10_fallback_alias_not_normalized "hevc" "nvidia" "x265"
      (fun _ => false)).2 (by decide)
  exact ⟨h.1, h.2 (fun ge hge => rfl)⟩

/-- Config with a 1 kbit target video bitrate (and no audio re-encode),
for the C9 counterexample. -/
def cfg1 : TConfig :=
  { video_codec := "hevc", video_bitrate := 1, audio_bitrate := 0,
    fallback_encoder := "" }

/-- Config with a 7 kbit target video bitrate, for the C9 witness. -/
def cfg7 : TConfig :=
  { video_codec := "av1", video_bitrate := 7, audio_bitrate := 0,
    fallback_encoder := "" }

/-- A probed input with one video stream, used where the target bitrate
is configured and the stream data is irrelevant. -/
def info1 : MediaInfo :=
  { fmt_duration := some 100,
    streams := [{ codec_type := "video", codec_name := "h264",
                  bit_rate := some "5000000" }] }

/-- C9 counterexample: with target bitrate B = 1, the command carries
`-maxrate 1k` — the truncated `int(1 * 1.5) = 1` — which is not the
claimed exact `1.5 × B = 1.5`. -/
theorem C9_counterexample :
    build_ffmpeg_command "in.mkv" "out.mkv" "libx265" cfg1 info1 =
      .ok ["ffmpeg", "-i", "in.mkv", "-map", "0", "-c:v", "libx265",
           "-b:v", "1k", "-maxrate", "1k", "-bufsize", "2k",
           "-c:a", "copy", "-c:s", "copy", "-y", "out.mkv"] ∧
    maxrate_k 1 = 1 ∧ ((maxrate_k 1 : ℚ) ≠ (3 / 2) * (1 : ℚ)) := by
  refine ⟨rfl, rfl, ?_⟩
  norm_num [maxrate_k]

/-- C9 amended: with a configured target bitrate B > 0 the command sets
`-b:v` to B, `-bufsize` to exactly 2 × B, and `-maxrate` to the integer
truncation of 1.5 × B (characterised by 2·maxrate ≤ 3·B < 2·(maxrate+1),
so it equals 1.5 × B exactly iff B is even); with B = 0 the command
inherits the source video stream's reported bitrate instead. -/
theorem C9_amended_bitrate_args (input_file output_file encoder : String)
    (cfg : TConfig) (input_info : MediaInfo) :
    (0 < cfg.video_bitrate →
      build_ffmpeg_command input_file output_file encoder cfg input_info =
        .ok (["ffmpeg", "-i", input_file, "-map", "0", "-c:v", encoder] ++
          ["-b:v", fmtK cfg.video_bitrate,
           "-maxrate", fmtK (maxrate_k cfg.video_bitrate),
           "-bufsize", fmtK (cfg.video_bitrate * 2)] ++
          (["-c:a", "copy"] ++
            (if cfg.audio_bitrate > 0 then
              ["-c:a:0", "aac", "-b:a:0", fmtK cfg.audio_bitrate]
            else [])) ++
          ["-c:s", "copy"] ++ ["-y", output_file]) ∧
      2 * maxrate_k cfg.video_bitrate ≤ 3 * cfg.video_bitrate ∧
      3 * cfg.video_bitrate < 2 * (maxrate_k cfg.video_bitrate + 1)) ∧
    (cfg.video_bitrate = 0 →
      ∀ vs r, input_info.streams.find? (fun s => s.codec_type == "video") =
          some vs →
        vs.bit_rate = some r → r ≠ "" →
        build_ffmpeg_command input_file output_file encoder cfg input_info =
          .ok (["ffmpeg", "-i", input_file, "-map", "0", "-c:v", encoder] ++
            ["-b:v", r] ++
            (["-c:a", "copy"] ++
              (if cfg.audio_bitrate > 0 then
                ["-c:a:0", "aac", "-b:a:0", fmtK cfg.audio_bitrate]
              else [])) ++
            ["-c:s", "copy"] ++ ["-y", output_file])) := by
  constructor
  · intro hB
    refine ⟨?_, ?_, ?_⟩
    · simp only [build_ffmpeg_command, if_pos hB]
    · unfold maxrate_k
      omega
    · unfold maxrate_k
      omega
  · intro hB vs r hvs hr hr2
    have hnot : ¬ cfg.video_bitrate > 0 := by omega
    simp only [build_ffmpeg_command, if_neg hnot, hvs, hr]
    rw [if_neg hr2]

/-- Closed instance of `C9_amended_bitrate_args` at B = 7: the command
carries `-b:v 7k`, `-maxrate 10k` (the truncation of 10.5) and
`-bufsize 14k`. -/
theorem C9_amended_bitrate_args_witness :
    build_ffmpeg_command "a.mkv" "b.mkv" "libaom-av1" cfg7 info1 =
      .ok ["ffmpeg", "-i", "a.mkv", "-map", "0", "-c:v", "libaom-av1",
           "-b:v", "7k", "-maxrate", "10k", "-bufsize", "14k",
           "-c:a", "copy", "-c:s", "copy", "-y", "b.mkv"] ∧
    2 * maxrate_k 7 ≤ 3 * 7 ∧ 3 * 7 < 2 * (maxrate_k 7 + 1) := by
  have h := (C9_amended_bitrate_args "a.mkv" "b.mkv" "libaom-av1" cfg7
    info1).1 (by decide)
  refine ⟨?_, h.2.1, h.2.2⟩
  rw [h.1]
  rfl

/-- World in which no file exists, no file has a size and every probe
fails, for the C2 counterexample and witness. -/
def fs2 : FS where
  pathOk := fun _ => false
  size := fun _ => 0
  probe := fun _ => none

/-- C2 counterexample: on a missing output file,
`HT_linuxbuild.verify_transcoded_file` still reports "missing or empty",
but only after probing both files — the probe events precede the check,
refuting the claim that the missing/empty report happens before any
probe is attempted. -/
theorem C2_counterexample :
    verify_transcoded_file fs2 "in2.mkv" "out2.mkv" =
      ([Ev.probe "in2.mkv", Ev.probe "out2.mkv"],
        .ok (false, Reason.missingOrEmpty)) ∧
    Ev.probe "out2.mkv" ∈ (verify_transcoded_file fs2 "in2.mkv" "out2.mkv").1 := by
  refine ⟨rfl, ?_⟩
  rw [show (verify_transcoded_file fs2 "in2.mkv" "out2.mkv").1 =
    [Ev.probe "in2.mkv", Ev.probe "out2.mkv"] from rfl]
  simp

/-- C2 amended: `run_transcode.verify_transcoding` performs the claimed
checks in the claimed order — existence, non-zero size, probe success,
duration within tolerance — short-circuiting with the corresponding
logged reason, and no probe is attempted for a missing or empty output;
`HT_linuxbuild.verify_transcoded_file` instead probes both files
unconditionally before any check, has no explicit probe-failure check
(a missing duration raises instead), uses the fixed tolerance 2 s, and
finally compares the output codec against the fixed string "av1". -/
theorem C2_amended_verification_order (fs : FS) (i o : String) (tol : ℚ) :
    (fs.pathOk o = false →
      verify_transcoding fs i o tol = ([Ev.logMissingOutput o], .ok false)) ∧
    (fs.pathOk o = true → fs.size o = 0 →
      verify_transcoding fs i o tol = ([Ev.logEmptyOutput o], .ok false)) ∧
    (fs.pathOk o = true → fs.size o ≠ 0 →
      (fs.probe i = none ∨ fs.probe o = none) →
      verify_transcoding fs i o tol =
        ([Ev.probe i, Ev.probe o, Ev.logNoInfo], .ok false)) ∧
    (∀ mi mo di dOut, fs.pathOk o = true → fs.size o ≠ 0 →
      fs.probe i = some mi → fs.probe o = some mo →
      mi.fmt_duration = some di → mo.fmt_duration = some dOut →
      verify_transcoding fs i o tol =
        (if ratAbs (di - dOut) > tol then
          ([Ev.probe i, Ev.probe o, Ev.logDurationMismatch di dOut], .ok false)
        else
          ([Ev.probe i, Ev.probe o, Ev.logVerificationPassed], .ok true))) ∧
    ((verify_transcoded_file fs i o).1 = [Ev.probe i, Ev.probe o]) ∧
    (fs.pathOk o = false ∨ fs.size o = 0 →
      (verify_transcoded_file fs i o).2 = .ok (false, Reason.missingOrEmpty)) ∧
    (∀ di dOut, fs.pathOk o = true → fs.size o ≠ 0 →
      (probe_raw fs i).fmt_duration = some di →
      (probe_raw fs o).fmt_duration = some dOut →
      (verify_transcoded_file fs i o).2 =
        (if ratAbs (di - dOut) > 2 then
          .ok (false, Reason.durationMismatch di dOut)
        else if ((probe_raw fs o).streams.find?
            (fun s => s.codec_type == "video")).map (fun s => s.codec_name) ≠
            some "av1" then
          .ok (false, Reason.wrongCodec (((probe_raw fs o).streams.find?
            (fun s => s.codec_type == "video")).map (fun s => s.codec_name)))
        else .ok (true, Reason.passed))) := by
  refine ⟨?_, ?_, ?_, ?_, ?_, ?_, ?_⟩
  · intro h
    unfold verify_transcoding
    rw [if_pos h]
  · intro h1 h2
    unfold verify_transcoding
    rw [if_neg (by simp [h1]), if_pos h2]
  · intro h1 h2 h3
    unfold verify_transcoding
    rw [if_neg (by simp [h1]), if_neg h2]
    rcases h3 with hp | hp
    · simp only [hp]
      rfl
    · rcases hq : fs.probe i with _ | mi <;> (simp only [hp, hq]; rfl)
  · intro mi mo di dOut h1 h2 hpi hpo hdi hdo
    unfold verify_transcoding
    rw [if_neg (by simp [h1]), if_neg h2]
    simp only [hpi, hpo, hdi, hdo]
    split_ifs <;> rfl
  · unfold verify_transcoded_file
    split_ifs
    · rfl
    · rcases hdi : (probe_raw fs i).fmt_duration with _ | di <;>
        rcases hdo : (probe_raw fs o).fmt_duration with _ | dOut <;>
        (simp only [hdi, hdo]; try split_ifs <;> rfl)
  · intro hc
    unfold verify_transcoded_file
    rw [if_pos (by rcases hc with h | h <;> simp [h])]
  · intro di dOut h1 h2 hdi hdo
    unfold verify_transcoded_file
    rw [if_neg (by simp [h1, h2])]
    simp only [hdi, hdo]
    split_ifs <;> rfl

/-- Closed instance of `C2_amended_verification_order`: with everything
missing, `verify_transcoding` reports the missing output without
probing, while `verify_transcoded_file`'s event trace is the two probe
attempts. -/
theorem C2_amended_verification_order_witness :
    verify_transcoding fs2 "a.mkv" "b.mkv" 1 =
      ([Ev.logMissingOutput "b.mkv"], .ok false) ∧
    (verify_transcoded_file fs2 "a.mkv" "b.mkv").1 =
      [Ev.probe "a.mkv", Ev.probe "b.mkv"] := by
  have h := C2_amended_verification_order fs2 "a.mkv" "b.mkv" 1
  exact ⟨h.1 rfl, h.2.2.2.2.1⟩

/-- World for the cancelled-but-verified scenario: input `in/j.mkv` and
output `out/j.mkv` both exist, probe to equal durations, and the output's
video stream is av1 — so `verify_transcoded_file` passes on the partial
output left behind by a terminated process. -/
def fs0 : FS where
  pathOk := fun p => p == "in/j.mkv" || p == "out/j.mkv"
  size := fun p => if p == "in/j.mkv" then 1000 else 500
  probe := fun p =>
    if p == "in/j.mkv" then
      some { fmt_duration := some 100,
             streams := [{ codec_type := "video", codec_name := "h264",
                           bit_rate := some "4000000" }] }
    else if p == "out/j.mkv" then
      some { fmt_duration := some 100,
             streams := [{ codec_type := "video", codec_name := "av1",
                           bit_rate := some "2000000" }] }
    else none

/-- One HandBrake stdout progress line. -/
def lines0 : List String := ["Encoding: 5.00 %"]

/-- C1 (code bug): with deletion requested, a job whose callback
cancelled it mid-run — `transcode_file` returned the string
`"cancelled"`, not an elapsed time — still reaches `process_file`'s
success branch through the `is not None` test, is re-verified, and the
original input file is deleted, although the job's outcome is Cancelled
rather than Completed. -/
theorem C1_delete_despite_cancelled :
    (transcode_file fs0 "in/j.mkv" "out/j.mkv" lines0 0
      (some fun _ => true)).1 = TResult.cancelled ∧
    process_file fs0 "j.mkv" "in" "out" lines0 0 (some fun _ _ => true)
        true =
      (true, [Ev.probe "in/j.mkv", Ev.probe "out/j.mkv",
              Ev.deleteOriginal "in/j.mkv"]) := by
  have habs0 : ratAbs (0 : ℚ) = 0 := by
    unfold ratAbs
    norm_num
  have hver : verify_transcoded_file fs0 "in/j.mkv" "out/j.mkv" =
      ([Ev.probe "in/j.mkv", Ev.probe "out/j.mkv"],
        .ok (true, Reason.passed)) := by
    simp [verify_transcoded_file, probe_raw, fs0]
    rw [habs0]
    norm_num
  have hj1 : joinPath "in" "j.mkv" = "in/j.mkv" := rfl
  have hj2 : joinPath "out" "j.mkv" = "out/j.mkv" := rfl
  have hpi : fs0.pathOk "in/j.mkv" = true := rfl
  have hpo : fs0.pathOk "out/j.mkv" = true := rfl
  have hcancel : transcode_file fs0 "in/j.mkv" "out/j.mkv" lines0 0
      (some fun _ => true) = (TResult.cancelled, []) := rfl
  refine ⟨by rw [hcancel], ?_⟩
  simp [process_file, hj1, hj2, hcancel, hver, hpi, hpo]

/-- C3 (code bug): the same cancelled job, processed by the
`process_file`/`main_loop` pipeline with deletion off, is re-verified
after cancellation and recorded in `all_stats` as a success — the
distinct `"cancelled"` marker returned by `transcode_file` is never
checked by its caller. -/
theorem C3_cancelled_counted_as_success :
    (transcode_file fs0 "in/j.mkv" "out/j.mkv" lines0 0
      (some (fun _ => true))).1 = TResult.cancelled ∧
    (main_loop fs0 (fun _ => (lines0, 0)) (some fun _ _ => true) false
      "in" "out" ["j.mkv"]).1 = [("j.mkv", true)] := by
  have habs0 : ratAbs (0 : ℚ) = 0 := by
    unfold ratAbs
    norm_num
  have hver : verify_transcoded_file fs0 "in/j.mkv" "out/j.mkv" =
      ([Ev.probe "in/j.mkv", Ev.probe "out/j.mkv"],
        .ok (true, Reason.passed)) := by
    simp [verify_transcoded_file, probe_raw, fs0]
    rw [habs0]
    norm_num
  have hj1 : joinPath "in" "j.mkv" = "in/j.mkv" := rfl
  have hj2 : joinPath "out" "j.mkv" = "out/j.mkv" := rfl
  have hpi : fs0.pathOk "in/j.mkv" = true := rfl
  have hpo : fs0.pathOk "out/j.mkv" = true := rfl
  have hcancel : transcode_file fs0 "in/j.mkv" "out/j.mkv" lines0 0
      (some fun _ => true) = (TResult.cancelled, []) := rfl
  refine ⟨by rw [hcancel], ?_⟩
  have hpf : process_file fs0 "j.mkv" "in" "out" lines0 0
      (some fun _ _ => true) false =
      (true, [Ev.probe "in/j.mkv", Ev.probe "out/j.mkv"]) := by
    simp [process_file, hj1, hj2, hcancel, hver, hpi, hpo]
  simp [main_loop, hpf]

/-- The five files of the C8 run. -/
def files8 : List String := ["f1.mkv", "f2.mkv", "f3.mkv", "f4.mkv", "f5.mkv"]

/-- World for the C8 run: all five inputs exist; good outputs exist for
jobs 1 and 2 only (jobs 3–5 are stopped before writing anything). -/
def fs8 : FS where
  pathOk := fun p =>
    p == "in/f1.mkv" || p == "in/f2.mkv" || p == "in/f3.mkv" ||
    p == "in/f4.mkv" || p == "in/f5.mkv" ||
    p == "out/f1.mkv" || p == "out/f2.mkv"
  size := fun _ => 1000
  probe := fun p =>
    if p == "in/f1.mkv" || p == "in/f2.mkv" then
      some { fmt_duration := some 100,
             streams := [{ codec_type := "video", codec_name := "h264",
                           bit_rate := some "4000000" }] }
    else if p == "out/f1.mkv" || p == "out/f2.mkv" then
      some { fmt_duration := some 100,
             streams := [{ codec_type := "video", codec_name := "av1",
                           bit_rate := some "2000000" }] }
    else none

/-- Every job's HandBrake process prints one progress line and exits 0. -/
def env8 : String → List String × Int := fun _ => (lines0, 0)

/-- The GUI's `cancel_flag` as seen by each job's progress callback:
clear while jobs 1 and 2 run, set while job 3 runs, and never cleared
afterwards. -/
def cb8 : String → ℚ → Bool := fun f _ =>
  f == "f3.mkv" || f == "f4.mkv" || f == "f5.mkv"

/-- `ratAbs` vanishes at zero (the duration difference of the concrete
worlds). -/
theorem ratAbs_zero : ratAbs (0 : ℚ) = 0 := by
  unfold ratAbs
  norm_num

/-- Verification of job 1's finished output in the C8 world. -/
theorem verify8_f1 : verify_transcoded_file fs8 "in/f1.mkv" "out/f1.mkv" =
    ([Ev.probe "in/f1.mkv", Ev.probe "out/f1.mkv"],
      .ok (true, Reason.passed)) := by
  simp [verify_transcoded_file, probe_raw, fs8]
  rw [ratAbs_zero]
  norm_num

/-- Verification of job 2's finished output in the C8 world. -/
theorem verify8_f2 : verify_transcoded_file fs8 "in/f2.mkv" "out/f2.mkv" =
    ([Ev.probe "in/f2.mkv", Ev.probe "out/f2.mkv"],
      .ok (true, Reason.passed)) := by
  simp [verify_transcoded_file, probe_raw, fs8]
  rw [ratAbs_zero]
  norm_num

/-- Job 1 runs to completion: the callback never asks to cancel, the
process exits 0 and verification passes. -/
theorem transcode8_f1 : transcode_file fs8 "in/f1.mkv" "out/f1.mkv" lines0 0
    (some (cb8 "f1.mkv")) =
    (TResult.success, [Ev.probe "in/f1.mkv", Ev.probe "out/f1.mkv"]) := by
  have hnc : first_cancel (some (cb8 "f1.mkv")) lines0 = none := rfl
  simp [transcode_file, hnc, verify8_f1]

/-- Job 2 runs to completion. -/
theorem transcode8_f2 : transcode_file fs8 "in/f2.mkv" "out/f2.mkv" lines0 0
    (some (cb8 "f2.mkv")) =
    (TResult.success, [Ev.probe "in/f2.mkv", Ev.probe "out/f2.mkv"]) := by
  have hnc : first_cancel (some (cb8 "f2.mkv")) lines0 = none := rfl
  simp [transcode_file, hnc, verify8_f2]

/-- Job 3 is cancelled at its first progress report. -/
theorem transcode8_f3 : transcode_file fs8 "in/f3.mkv" "out/f3.mkv" lines0 0
    (some (cb8 "f3.mkv")) = (TResult.cancelled, []) := rfl

/-- Job 4 is dispatched and then cancelled at its first progress
report. -/
theorem transcode8_f4 : transcode_file fs8 "in/f4.mkv" "out/f4.mkv" lines0 0
    (some (cb8 "f4.mkv")) = (TResult.cancelled, []) := rfl

/-- Job 5 is dispatched and then cancelled at its first progress
report. -/
theorem transcode8_f5 : transcode_file fs8 "in/f5.mkv" "out/f5.mkv" lines0 0
    (some (cb8 "f5.mkv")) = (TResult.cancelled, []) := rfl

/-- `process_file` on job 1 in the C8 world. -/
theorem process8_f1 : process_file fs8 "f1.mkv" "in" "out" lines0 0
    (some cb8) false =
    (true, [Ev.probe "in/f1.mkv", Ev.probe "out/f1.mkv",
            Ev.probe "in/f1.mkv", Ev.probe "out/f1.mkv"]) := by
  have hj1 : joinPath "in" "f1.mkv" = "in/f1.mkv" := rfl
  have hj2 : joinPath "out" "f1.mkv" = "out/f1.mkv" := rfl
  have hpi : fs8.pathOk "in/f1.mkv" = true := rfl
  have hpo : fs8.pathOk "out/f1.mkv" = true := rfl
  simp [process_file, hj1, hj2, transcode8_f1, verify8_f1, hpi, hpo]

/-- `process_file` on job 2 in the C8 world. -/
theorem process8_f2 : process_file fs8 "f2.mkv" "in" "out" lines0 0
    (some cb8) false =
    (true, [Ev.probe "in/f2.mkv", Ev.probe "out/f2.mkv",
            Ev.probe "in/f2.mkv", Ev.probe "out/f2.mkv"]) := by
  have hj1 : joinPath "in" "f2.mkv" = "in/f2.mkv" := rfl
  have hj2 : joinPath "out" "f2.mkv" = "out/f2.mkv" := rfl
  have hpi : fs8.pathOk "in/f2.mkv" = true := rfl
  have hpo : fs8.pathOk "out/f2.mkv" = true := rfl
  simp [process_file, hj1, hj2, transcode8_f2, verify8_f2, hpi, hpo]

/-- `process_file` on job 3 in the C8 world: the transcode is cancelled
and the partial output is missing, so the job is reported `False`. -/
theorem process8_f3 : process_file fs8 "f3.mkv" "in" "out" lines0 0
    (some cb8) false = (false, []) := by
  have hj1 : joinPath "in" "f3.mkv" = "in/f3.mkv" := rfl
  have hj2 : joinPath "out" "f3.mkv" = "out/f3.mkv" := rfl
  have hpi : fs8.pathOk "in/f3.mkv" = true := rfl
  have hpo : fs8.pathOk "out/f3.mkv" = false := rfl
  simp [process_file, hj1, hj2, transcode8_f3, hpi, hpo]

/-- `process_file` on job 4 in the C8 world. -/
theorem process8_f4 : process_file fs8 "f4.mkv" "in" "out" lines0 0
    (some cb8) false = (false, []) := by
  have hj1 : joinPath "in" "f4.mkv" = "in/f4.mkv" := rfl
  have hj2 : joinPath "out" "f4.mkv" = "out/f4.mkv" := rfl
  have hpi : fs8.pathOk "in/f4.mkv" = true := rfl
  have hpo : fs8.pathOk "out/f4.mkv" = false := rfl
  simp [process_file, hj1, hj2, transcode8_f4, hpi, hpo]

/-- `process_file` on job 5 in the C8 world. -/
theorem process8_f5 : process_file fs8 "f5.mkv" "in" "out" lines0 0
    (some cb8) false = (false, []) := by
  have hj1 : joinPath "in" "f5.mkv" = "in/f5.mkv" := rfl
  have hj2 : joinPath "out" "f5.mkv" = "out/f5.mkv" := rfl
  have hpi : fs8.pathOk "in/f5.mkv" = true := rfl
  have hpo : fs8.pathOk "out/f5.mkv" = false := rfl
  simp [process_file, hj1, hj2, transcode8_f5, hpi, hpo]

/-- Full evaluation of the C8 run: stats record jobs 1 and 2, and the
trace shows all five dispatches. -/
theorem main_loop8_eval :
    main_loop fs8 env8 (some cb8) false "in" "out" files8 =
      ([("f1.mkv", true), ("f2.mkv", true)],
       [Ev.dispatch "f1.mkv", Ev.probe "in/f1.mkv", Ev.probe "out/f1.mkv",
        Ev.probe "in/f1.mkv", Ev.probe "out/f1.mkv",
        Ev.dispatch "f2.mkv", Ev.probe "in/f2.mkv", Ev.probe "out/f2.mkv",
        Ev.probe "in/f2.mkv", Ev.probe "out/f2.mkv",
        Ev.dispatch "f3.mkv", Ev.dispatch "f4.mkv",
        Ev.dispatch "f5.mkv"]) := by
  simp [main_loop, files8, env8, process8_f1, process8_f2, process8_f3,
    process8_f4, process8_f5]

/-- C8 counterexample: after the external stop signal is raised during
job 3, jobs 4 and 5 are still dispatched by `main_loop` — their dispatch
events are in the run's trace, and each is cancelled only after its
process was spawned — refuting the claim that they remain queued and are
never dispatched to an engine. -/
theorem C8_counterexample :
    Ev.dispatch "f4.mkv" ∈
      (main_loop fs8 env8 (some cb8) false "in" "out" files8).2 ∧
    Ev.dispatch "f5.mkv" ∈
      (main_loop fs8 env8 (some cb8) false "in" "out" files8).2 ∧
    (transcode_file fs8 "in/f4.mkv" "out/f4.mkv" lines0 0
      (some (cb8 "f4.mkv"))).1 = TResult.cancelled := by
  rw [main_loop8_eval]
  refine ⟨by simp, by simp, rfl⟩

/-- C8 amended: with the cancel signal raised while job 3 runs and never
cleared, jobs 1 and 2 complete and stay recorded as successes, job 3's
engine returns `"cancelled"`, and jobs 4 and 5 — far from staying
queued — are each dispatched in turn and cancelled at their first
progress report; the loop dispatches every job unconditionally. -/
theorem C8_amended_shutdown_dispatch :
    (files8.map (fun f =>
      (transcode_file fs8 (joinPath "in" f) (joinPath "out" f)
        (env8 f).1 (env8 f).2 (some (cb8 f))).1)) =
      [TResult.success, TResult.success, TResult.cancelled,
       TResult.cancelled, TResult.cancelled] ∧
    (main_loop fs8 env8 (some cb8) false "in" "out" files8).1 =
      [("f1.mkv", true), ("f2.mkv", true)] ∧
    (main_loop fs8 env8 (some cb8) false "in" "out" files8).2.filter
        (fun e => match e with | Ev.dispatch _ => true | _ => false) =
      [Ev.dispatch "f1.mkv", Ev.dispatch "f2.mkv", Ev.dispatch "f3.mkv",
       Ev.dispatch "f4.mkv", Ev.dispatch "f5.mkv"] := by
  have hj1i : joinPath "in" "f1.mkv" = "in/f1.mkv" := rfl
  have hj1o : joinPath "out" "f1.mkv" = "out/f1.mkv" := rfl
  have hj2i : joinPath "in" "f2.mkv" = "in/f2.mkv" := rfl
  have hj2o : joinPath "out" "f2.mkv" = "out/f2.mkv" := rfl
  have hj3i : joinPath "in" "f3.mkv" = "in/f3.mkv" := rfl
  have hj3o : joinPath "out" "f3.mkv" = "out/f3.mkv" := rfl
  have hj4i : joinPath "in" "f4.mkv" = "in/f4.mkv" := rfl
  have hj4o : joinPath "out" "f4.mkv" = "out/f4.mkv" := rfl
  have hj5i : joinPath "in" "f5.mkv" = "in/f5.mkv" := rfl
  have hj5o : joinPath "out" "f5.mkv" = "out/f5.mkv" := rfl
  refine ⟨?_, ?_, ?_⟩
  · simp [files8, env8, hj1i, hj1o, hj2i, hj2o, hj3i, hj3o, hj4i, hj4o,
      hj5i, hj5o, transcode8_f1, transcode8_f2, transcode8_f3,
      transcode8_f4, transcode8_f5]
  · rw [main_loop8_eval]
  · rw [main_loop8_eval]
    rfl

end Rapture
